import Mathlib

/-!
Verification development for `tekscope` (`src/tekscope/parse.py`).

The repository decodes raw oscilloscope byte responses:
  * `parse_ribinary_seq` : big-endian fixed-width signed-integer decode
    (implemented in Python via `np.frombuffer(data, dtype.newbyteorder('>'))`);
  * `parse_ascii_seq`    : comma-separated decimal-integer decode
    (implemented via `np.array(data.split(b","), dtype)`, which converts each
    token with Python's `int()` and then casts to the fixed-width dtype);
  * `parse_wfmoutpre`    : semicolon-delimited preamble record to a
    `WaveformMetadata` value (or `None` when fewer than 17 fields).

Shallow embedding conventions:
  * a Python `bytes` buffer fed to the binary decoder is a `List Nat` of byte
    values; text buffers are `List Char`;
  * Python exceptions (`ValueError` raised by numpy / `float()` / `int()`)
    become the `.error` branch of `Except FormatError _`, with a `FormatError`
    constructor classifying the failure;
  * Python `float` values are modelled as exact rationals (the parsed value of
    the literal); the special forms `inf` / `nan` are outside the grammar the
    specification and claims quantify over and are not modelled;
  * `np.frombuffer` is embedded by its documented semantics: with a buffer
    whose length is not a multiple of the element size it raises, otherwise it
    yields `length / itemsize` elements, the `i`-th read big-endian from bytes
    `i*itemsize .. i*itemsize + itemsize - 1`.
-/

/-- Element dtypes accepted by the decoders: `np.int8`, `np.int16`, `np.int32`
(8/16/32-bit signed integers). -/
inductive Dtype
  | i8
  | i16
  | i32
deriving DecidableEq

/-- Size in bytes of one element of the dtype (numpy `itemsize`). -/
def Dtype.byteSize : Dtype → Nat
  | .i8 => 1
  | .i16 => 2
  | .i32 => 4

/-- Classification of the `ValueError`s the Python code can raise. -/
inductive FormatError
  | bufferSizeNotMultiple
  | invalidIntLiteral (i : Nat)
  | invalidFloatLiteral (i : Nat)
deriving DecidableEq

/-- Modelled from the spec: `WaveformMetadata` is defined in the repository's
`tekscope/waveform.py`, which is not under `src/`; the spec describes it as a
value object with five numeric fields `t_incr`, `t_zero`, `v_mult`, `v_off`,
`v_zero` and no behaviour. Python floats are modelled as exact rationals. -/
structure WaveformMetadata where
  t_incr : ℚ
  t_zero : ℚ
  v_mult : ℚ
  v_off : ℚ
  v_zero : ℚ
deriving DecidableEq

/-- Big-endian value of a byte list: most significant byte first
(the RI binary wire order). -/
def beBytesVal (l : List Nat) : Nat :=
  l.foldl (fun a b => 256 * a + b) 0

/-- Two's-complement reading of an unsigned `bits`-bit value. -/
def toSigned (bits : Nat) (u : Nat) : Int :=
  if u < 2 ^ (bits - 1) then (u : Int) else (u : Int) - 2 ^ bits

/-- Two's-complement truncation of an integer to `bits` bits (the C-style
cast numpy applies when storing into a fixed-width dtype). -/
def toUnsigned (bits : Nat) (v : Int) : Nat :=
  (v % (2 ^ bits : Int)).toNat

/-- The `i`-th element `np.frombuffer` reads from `data` at element size `k`:
bytes `i*k .. i*k + k - 1`, most significant first, two's complement. -/
def riDecodeElem (k : Nat) (data : List Nat) (i : Nat) : Int :=
  toSigned (8 * k) (beBytesVal ((data.drop (i * k)).take k))

/-- Embedding of `parse_ribinary_seq` (`src/tekscope/parse.py`, line 9):
`np.frombuffer(data, dtype=np.dtype(dtype).newbyteorder('>'))`.
`np.frombuffer` raises `ValueError` ("buffer size must be a multiple of
element size") when the length is not a multiple of the itemsize; otherwise it
yields `length / itemsize` big-endian signed elements. -/
def parse_ribinary_seq (data : List Nat) (dtype : Dtype) : Except FormatError (List Int) :=
  if data.length % dtype.byteSize = 0 then
    .ok ((List.range (data.length / dtype.byteSize)).map (riDecodeElem dtype.byteSize data))
  else
    .error .bufferSizeNotMultiple

/-- Big-endian two's-complement encoding of a natural number into `k` bytes
(the inverse wire format, used to state the round-trip law). -/
def natToBeBytes : Nat → Nat → List Nat
  | 0, _ => []
  | k + 1, n => natToBeBytes k (n / 256) ++ [n % 256]

/-- Re-encode one decoded element as `k` big-endian bytes. -/
def encodeElem (k : Nat) (v : Int) : List Nat :=
  natToBeBytes k (toUnsigned (8 * k) v)

/-- Re-encode a decoded sequence as a big-endian byte buffer. -/
def encodeSeq (k : Nat) (out : List Int) : List Nat :=
  (out.map (encodeElem k)).flatten

/-- Python `bytes.split(sep)` with a one-byte separator, on `List Char`:
the empty buffer yields one empty token, and separators delimit (possibly
empty) tokens. -/
def splitOnChar (sep : Char) : List Char → List (List Char)
  | [] => [[]]
  | c :: rest =>
    match splitOnChar sep rest with
    | [] => [[c]]
    | h :: t => if c = sep then [] :: h :: t else (c :: h) :: t

/-- Whitespace characters stripped by Python's `int()` / `float()` on ASCII
input. -/
def isPySpace (c : Char) : Bool :=
  c = ' ' || c = '\t' || c = '\n' || c = '\x0d' || c = '\x0b' || c = '\x0c'

/-- Strip leading and trailing Python whitespace. -/
def stripPyWs (l : List Char) : List Char :=
  ((l.dropWhile isPySpace).reverse.dropWhile isPySpace).reverse

/-- Optional leading sign: returns the sign and the remaining characters. -/
def readSign : List Char → Int × List Char
  | '+' :: r => (1, r)
  | '-' :: r => (-1, r)
  | r => (1, r)

/-- Continue a digit run: accumulated value, digit count, remaining input.
Python permits a single underscore between two digits (`1_0` is `10`); an
underscore not followed by a digit is left unconsumed (making the enclosing
parse fail on the leftover input). -/
def digitsAux : Nat → Nat → List Char → Nat × Nat × List Char
  | acc, n, '_' :: c :: rest =>
    if c.isDigit then digitsAux (10 * acc + (c.toNat - 48)) (n + 1) rest
    else (acc, n, '_' :: c :: rest)
  | acc, n, c :: rest =>
    if c.isDigit then digitsAux (10 * acc + (c.toNat - 48)) (n + 1) rest
    else (acc, n, c :: rest)
  | acc, n, [] => (acc, n, [])

/-- Parse a nonempty digit run (Python `digitpart`): value, number of digits,
remaining input; `none` when the input does not start with a digit. -/
def pyDigits (l : List Char) : Option (Nat × Nat × List Char) :=
  match l with
  | c :: rest =>
    if c.isDigit then some (digitsAux (c.toNat - 48) 1 rest) else none
  | [] => none

/-- Embedding of Python `int(token)` (base 10) as applied by numpy to each
token of the ASCII curve response: optional surrounding whitespace, optional
sign, then a digit run with optional single underscores between digits. -/
def pyIntOfChars (l : List Char) : Option Int :=
  let l1 := stripPyWs l
  let s := readSign l1
  match pyDigits s.2 with
  | some (m, _, rest) => if rest = [] then some (s.1 * m) else none
  | none => none

/-- Exact rational value of a parsed float literal: sign `sg`, integer part
`m`, fraction digits with value `f` and length `nf`, exponent sign `es` and
magnitude `ev`: the value `sg * (m + f / 10 ^ nf) * 10 ^ (es * ev)`, written
with `mkRat` over integer arithmetic. -/
def pyFloatVal (sg : Int) (m f nf : Nat) (es : Int) (ev : Nat) : ℚ :=
  if 0 ≤ es then mkRat (sg * ((m * 10 ^ nf + f) * 10 ^ ev)) (10 ^ nf)
  else mkRat (sg * (m * 10 ^ nf + f)) (10 ^ nf * 10 ^ ev)

/-- Optional exponent part and end of input: accepts `[]` (exponent 0) or
`e`/`E`, optional sign, digit run consuming the rest; yields the value of the
whole literal. -/
def pyFloatExp (sg : Int) (m f nf : Nat) (l : List Char) : Option ℚ :=
  match l with
  | [] => some (pyFloatVal sg m f nf 1 0)
  | 'e' :: rest =>
    let s := readSign rest
    match pyDigits s.2 with
    | some (e, _, rest2) => if rest2 = [] then some (pyFloatVal sg m f nf s.1 e) else none
    | none => none
  | 'E' :: rest =>
    let s := readSign rest
    match pyDigits s.2 with
    | some (e, _, rest2) => if rest2 = [] then some (pyFloatVal sg m f nf s.1 e) else none
    | none => none
  | _ => none

/-- After an integer part `m`: optional `.` with optional fraction digits,
then optional exponent. -/
def pyFloatAfterInt (sg : Int) (m : Nat) (l : List Char) : Option ℚ :=
  match l with
  | '.' :: rest =>
    match pyDigits rest with
    | some (f, nf, rest2) => pyFloatExp sg m f nf rest2
    | none => pyFloatExp sg m 0 0 rest
  | _ => pyFloatExp sg m 0 0 l

/-- Embedding of Python `float(field)` on the numeric literals the preamble
carries (decimal or scientific forms): optional surrounding whitespace,
optional sign, mantissa with optional fraction, optional exponent. The parsed
value is the exact rational value of the literal; the non-numeric forms
`inf`/`infinity`/`nan` are not modelled (no claim quantifies over them). -/
def pyFloatOfChars (l : List Char) : Option ℚ :=
  let l1 := stripPyWs l
  let s := readSign l1
  match s.2 with
  | '.' :: rest =>
    match pyDigits rest with
    | some (f, nf, rest2) => pyFloatExp s.1 0 f nf rest2
    | none => none
  | r =>
    match pyDigits r with
    | some (m, _, rest) => pyFloatAfterInt s.1 m rest
    | none => none

/-- Two's-complement truncation of a parsed integer into the target dtype
(numpy's fixed-width cast). -/
def wrapCast (dtype : Dtype) (v : Int) : Int :=
  toSigned (8 * dtype.byteSize) (toUnsigned (8 * dtype.byteSize) v)

/-- Worker for the ASCII decoder: converts the tokens in order, carrying the
index of the token being converted, and fails at the first token `int()`
rejects. -/
def asciiDecodeAux (dtype : Dtype) : Nat → List (List Char) → Except FormatError (List Int)
  | _, [] => .ok []
  | i, t :: rest =>
    match pyIntOfChars t with
    | none => .error (.invalidIntLiteral i)
    | some v =>
      match asciiDecodeAux dtype (i + 1) rest with
      | .error e => .error e
      | .ok vs => .ok (wrapCast dtype v :: vs)

/-- Embedding of `parse_ascii_seq` (`src/tekscope/parse.py`, line 20):
`np.array(data.split(b","), dtype=dtype)` — split on commas, convert each
token with Python `int()`, store with numpy's truncating fixed-width cast;
a token `int()` rejects raises `ValueError` (the first such token, in order). -/
def parse_ascii_seq (data : List Char) (dtype : Dtype) : Except FormatError (List Int) :=
  asciiDecodeAux dtype 0 (splitOnChar ',' data)

/-- Embedding of `parse_wfmoutpre` (`src/tekscope/parse.py`, line 30): split
on `;`; with fewer than 17 fields return `None`; otherwise build a
`WaveformMetadata` from `float()` of the fields at indices 10, 11, 14, 15, 16,
raising `ValueError` at the first of those fields that is not a float literal. -/
def parse_wfmoutpre (data : List Char) : Except FormatError (Option WaveformMetadata) :=
  if (splitOnChar ';' data).length < 17 then .ok none
  else
    match pyFloatOfChars ((splitOnChar ';' data).getD 10 []) with
    | none => .error (.invalidFloatLiteral 10)
    | some q10 =>
    match pyFloatOfChars ((splitOnChar ';' data).getD 11 []) with
    | none => .error (.invalidFloatLiteral 11)
    | some q11 =>
    match pyFloatOfChars ((splitOnChar ';' data).getD 14 []) with
    | none => .error (.invalidFloatLiteral 14)
    | some q14 =>
    match pyFloatOfChars ((splitOnChar ';' data).getD 15 []) with
    | none => .error (.invalidFloatLiteral 15)
    | some q15 =>
    match pyFloatOfChars ((splitOnChar ';' data).getD 16 []) with
    | none => .error (.invalidFloatLiteral 16)
    | some q16 =>
    .ok (some ⟨q10, q11, q14, q15, q16⟩)

/-- The integer-literal grammar the specification states for ASCII tokens:
an optional leading sign followed by one or more digits, with no whitespace
(and, being a plain decimal literal, no underscores). -/
def specIntLiteral (l : List Char) : Bool :=
  match l with
  | '+' :: r => !r.isEmpty && r.all Char.isDigit
  | '-' :: r => !r.isEmpty && r.all Char.isDigit
  | r => !r.isEmpty && r.all Char.isDigit

/-- The example preamble record from the WFMOUTPRE? doctest. -/
def exampleWfmoutpre : List Char :=
  ("1;8;BINARY;RI;MSB;\"Ch1, DC coupling, 100.0mV/div, 400.0ns/div, 10000 points, Sample mode\";10000;Y;LINEAR;\"s\";400.0000E-12;-20.0000E-6;0;\"V\";4.0000E-3;0.0E+0;0.0E+0;TIME;ANALOG;0.0E+0;0.0E+0;0.0E+0").data

/-! ### Helper lemmas about big-endian byte arithmetic -/

theorem foldl_be_acc (l : List Nat) (acc : Nat) :
    l.foldl (fun a b => 256 * a + b) acc =
      acc * 256 ^ l.length + l.foldl (fun a b => 256 * a + b) 0 := by
  induction l generalizing acc with
  | nil => simp
  | cons b l ih =>
    simp only [List.foldl_cons, List.length_cons]
    rw [ih (256 * acc + b), ih (256 * 0 + b)]
    ring

theorem beBytesVal_cons (b : Nat) (l : List Nat) :
    beBytesVal (b :: l) = b * 256 ^ l.length + beBytesVal l := by
  simp only [beBytesVal, List.foldl_cons]
  rw [foldl_be_acc]
  ring_nf

theorem beBytesVal_concat (l : List Nat) (b : Nat) :
    beBytesVal (l ++ [b]) = 256 * beBytesVal l + b := by
  simp [beBytesVal, List.foldl_append]

theorem beBytesVal_lt (l : List Nat) (h : ∀ b ∈ l, b < 256) :
    beBytesVal l < 256 ^ l.length := by
  induction l with
  | nil => simp [beBytesVal]
  | cons b l ih =>
    have hb : b < 256 := h b (List.mem_cons_self _ _)
    have hl : beBytesVal l < 256 ^ l.length := ih fun x hx => h x (List.mem_cons_of_mem _ hx)
    rw [beBytesVal_cons]
    calc b * 256 ^ l.length + beBytesVal l
        < b * 256 ^ l.length + 256 ^ l.length := by omega
      _ = (b + 1) * 256 ^ l.length := by ring
      _ ≤ 256 * 256 ^ l.length := Nat.mul_le_mul_right _ (by omega)
      _ = 256 ^ (b :: l).length := by rw [List.length_cons]; ring

theorem toUnsigned_toSigned (bits u : Nat) (h : u < 2 ^ bits) :
    toUnsigned bits (toSigned bits u) = u := by
  unfold toSigned toUnsigned
  have h2 : (0 : Int) < 2 ^ bits := by positivity
  split
  · rw [Int.emod_eq_of_lt (by positivity) (by exact_mod_cast h)]
    simp
  · rw [show (u : Int) - 2 ^ bits = u + 2 ^ bits * (-1) by ring, Int.add_mul_emod_self_left,
      Int.emod_eq_of_lt (by positivity) (by exact_mod_cast h)]
    simp

theorem natToBeBytes_beBytesVal (k : Nat) (l : List Nat) (hl : l.length = k)
    (h : ∀ b ∈ l, b < 256) : natToBeBytes k (beBytesVal l) = l := by
  induction k generalizing l with
  | zero =>
    rw [List.length_eq_zero.mp hl]
    rfl
  | succ k ih =>
    rcases List.eq_nil_or_concat l with rfl | ⟨ys, y, rfl⟩
    · simp at hl
    · simp only [List.concat_eq_append] at *
      have hy : y < 256 := h y (by simp)
      have hys : ys.length = k := by simpa using hl
      rw [beBytesVal_concat, natToBeBytes,
        show (256 * beBytesVal ys + y) / 256 = beBytesVal ys by omega,
        show (256 * beBytesVal ys + y) % 256 = y by omega,
        ih ys hys fun x hx => h x (by simp [hx])]

theorem encodeElem_toSigned (k : Nat) (l : List Nat) (hl : l.length = k)
    (h : ∀ b ∈ l, b < 256) : encodeElem k (toSigned (8 * k) (beBytesVal l)) = l := by
  have hlt : beBytesVal l < 2 ^ (8 * k) := by
    have := beBytesVal_lt l h
    rw [hl] at this
    calc beBytesVal l < 256 ^ k := this
      _ = 2 ^ (8 * k) := by rw [show (256 : Nat) = 2 ^ 8 by norm_num, ← pow_mul]
  unfold encodeElem
  rw [toUnsigned_toSigned _ _ hlt, natToBeBytes_beBytesVal k l hl h]

theorem encodeSeq_riDecode (k : Nat) (m : Nat) :
    ∀ data : List Nat, data.length = m * k → (∀ b ∈ data, b < 256) →
      encodeSeq k ((List.range m).map (riDecodeElem k data)) = data := by
  induction m with
  | zero =>
    intro data hlen _
    obtain rfl : data = [] := List.length_eq_zero.mp (by simpa using hlen)
    rfl
  | succ m ih =>
    intro data hlen hb
    have hkle : k ≤ data.length := by
      rw [hlen]
      calc k = 1 * k := (one_mul k).symm
        _ ≤ (m + 1) * k := Nat.mul_le_mul_right _ (by omega)
    have hstep : (List.range (m + 1)).map (riDecodeElem k data) =
        riDecodeElem k data 0 :: (List.range m).map (riDecodeElem k (data.drop k)) := by
      rw [List.range_succ_eq_map, List.map_cons, List.map_map]
      congr 1
      apply List.map_congr_left
      intro i _
      simp only [Function.comp_apply, riDecodeElem, Nat.succ_eq_add_one]
      rw [List.drop_drop, show (i + 1) * k = k + i * k by ring]
    rw [hstep]
    have h0 : encodeElem k (riDecodeElem k data 0) = data.take k := by
      unfold riDecodeElem
      rw [Nat.zero_mul, List.drop_zero]
      exact encodeElem_toSigned k _ (by simp [hkle]) fun x hx => hb x (List.take_subset _ _ hx)
    have hrest : encodeSeq k ((List.range m).map (riDecodeElem k (data.drop k))) = data.drop k :=
      ih (data.drop k)
        (by rw [List.length_drop, hlen, Nat.succ_mul, Nat.add_sub_cancel])
        fun x hx => hb x (List.drop_subset _ _ hx)
    calc encodeSeq k (riDecodeElem k data 0 :: (List.range m).map (riDecodeElem k (data.drop k)))
        = encodeElem k (riDecodeElem k data 0) ++
            encodeSeq k ((List.range m).map (riDecodeElem k (data.drop k))) := by
          simp [encodeSeq]
      _ = data.take k ++ data.drop k := by rw [h0, hrest]
      _ = data := List.take_append_drop _ _

/-! ### Helper lemmas about the ASCII decoder worker -/

theorem asciiDecodeAux_ok (dtype : Dtype) (toks : List (List Char)) :
    ∀ start, (∀ t ∈ toks, pyIntOfChars t ≠ none) →
      asciiDecodeAux dtype start toks =
        .ok (toks.map fun t => wrapCast dtype ((pyIntOfChars t).getD 0)) := by
  induction toks with
  | nil => intro start _; rfl
  | cons t rest ih =>
    intro start h
    obtain ⟨v, hv⟩ := Option.ne_none_iff_exists'.mp (h t (List.mem_cons_self _ _))
    rw [List.map_cons, asciiDecodeAux, hv,
      ih (start + 1) fun x hx => h x (List.mem_cons_of_mem _ hx)]
    rfl

theorem asciiDecodeAux_error (dtype : Dtype) (toks : List (List Char)) :
    ∀ start i, i < toks.length → pyIntOfChars (toks.getD i []) = none →
      (∀ j, j < i → pyIntOfChars (toks.getD j []) ≠ none) →
      asciiDecodeAux dtype start toks = .error (.invalidIntLiteral (start + i)) := by
  induction toks with
  | nil => intro start i hi; simp at hi
  | cons t rest ih =>
    intro start i hi hbad hgood
    cases i with
    | zero =>
      rw [List.getD_cons_zero] at hbad
      rw [asciiDecodeAux, hbad]
      rfl
    | succ i' =>
      obtain ⟨v, hv⟩ := Option.ne_none_iff_exists'.mp
        (by simpa using hgood 0 (Nat.succ_pos _))
      have hrest := ih (start + 1) i' (by simpa using hi) (by simpa using hbad)
        fun j hj => by simpa using hgood (j + 1) (by omega)
      rw [asciiDecodeAux, hv, hrest, show start + 1 + i' = start + (i' + 1) by omega]

/-! ### Claims -/

/-- Claim C1: for every semicolon-delimited preamble record with at least 17
fields whose fields at zero-based indices 10, 11, 14, 15 and 16 are valid
floating-point literals, `parse_wfmoutpre` returns a `WaveformMetadata` whose
`t_incr`, `t_zero`, `v_mult`, `v_off` and `v_zero` equal the parsed values of
fields 10, 11, 14, 15 and 16 respectively. -/
theorem parse_wfmoutpre_field_semantics (data : List Char) (q10 q11 q14 q15 q16 : ℚ)
    (h17 : 17 ≤ (splitOnChar ';' data).length)
    (h10 : pyFloatOfChars ((splitOnChar ';' data).getD 10 []) = some q10)
    (h11 : pyFloatOfChars ((splitOnChar ';' data).getD 11 []) = some q11)
    (h14 : pyFloatOfChars ((splitOnChar ';' data).getD 14 []) = some q14)
    (h15 : pyFloatOfChars ((splitOnChar ';' data).getD 15 []) = some q15)
    (h16 : pyFloatOfChars ((splitOnChar ';' data).getD 16 []) = some q16) :
    parse_wfmoutpre data = .ok (some ⟨q10, q11, q14, q15, q16⟩) := by
  unfold parse_wfmoutpre
  rw [if_neg (by omega), h10, h11, h14, h15, h16]

set_option maxRecDepth 8000 in
/-- Claim C1 witness: on the spec's example record the five fields parse to
`400e-12`, `-20e-6`, `4e-3`, `0`, `0` (as exact rationals) and
`parse_wfmoutpre` packs exactly those values. -/
theorem parse_wfmoutpre_field_semantics_witness :
    17 ≤ (splitOnChar ';' exampleWfmoutpre).length ∧
    pyFloatOfChars ((splitOnChar ';' exampleWfmoutpre).getD 10 []) = some (mkRat 1 2500000000) ∧
    pyFloatOfChars ((splitOnChar ';' exampleWfmoutpre).getD 11 []) = some (mkRat (-1) 50000) ∧
    pyFloatOfChars ((splitOnChar ';' exampleWfmoutpre).getD 14 []) = some (mkRat 1 250) ∧
    pyFloatOfChars ((splitOnChar ';' exampleWfmoutpre).getD 15 []) = some (mkRat 0 1) ∧
    pyFloatOfChars ((splitOnChar ';' exampleWfmoutpre).getD 16 []) = some (mkRat 0 1) ∧
    parse_wfmoutpre exampleWfmoutpre =
      .ok (some ⟨mkRat 1 2500000000, mkRat (-1) 50000, mkRat 1 250, mkRat 0 1, mkRat 0 1⟩) :=
  ⟨by decide, by decide, by decide, by decide, by decide, by decide,
    parse_wfmoutpre_field_semantics _ _ _ _ _ _ (by decide) (by decide) (by decide)
      (by decide) (by decide) (by decide)⟩

/-- Claim C2: for every input that splits into fewer than 17 semicolon-delimited
fields, `parse_wfmoutpre` returns the explicit absent-value result (`None`):
no error and no partially-filled metadata object. -/
theorem parse_wfmoutpre_short_returns_none (data : List Char)
    (h : (splitOnChar ';' data).length < 17) :
    parse_wfmoutpre data = .ok none := by
  unfold parse_wfmoutpre
  rw [if_pos h]

/-- Claim C2 witness: a three-field record yields the absent result. -/
theorem parse_wfmoutpre_short_returns_none_witness :
    (splitOnChar ';' ("1;2;3").data).length < 17 ∧
    parse_wfmoutpre ("1;2;3").data = .ok none :=
  ⟨by decide, parse_wfmoutpre_short_returns_none _ (by decide)⟩

/-- Claim C3: for every byte buffer whose length is not an exact multiple of the
element width in bytes, `parse_ribinary_seq` fails with a FormatError rather
than returning a value. -/
theorem parse_ribinary_seq_length_error (data : List Nat) (dtype : Dtype)
    (h : data.length % dtype.byteSize ≠ 0) :
    parse_ribinary_seq data dtype = .error .bufferSizeNotMultiple := by
  unfold parse_ribinary_seq
  rw [if_neg h]

/-- Claim C3 witness: one byte is not a multiple of the 16-bit element width. -/
theorem parse_ribinary_seq_length_error_witness :
    ([7] : List Nat).length % Dtype.i16.byteSize ≠ 0 ∧
    parse_ribinary_seq [7] .i16 = .error .bufferSizeNotMultiple :=
  ⟨by decide, parse_ribinary_seq_length_error _ _ (by decide)⟩

/-- Claim C4: for every byte buffer whose length is a multiple of the element
width, decoding with `parse_ribinary_seq` and re-encoding the result as
big-endian fixed-width signed integers at the same width reproduces the
original buffer exactly. -/
theorem parse_ribinary_seq_roundtrip (data : List Nat) (dtype : Dtype)
    (hlen : data.length % dtype.byteSize = 0) (hb : ∀ b ∈ data, b < 256) :
    ∃ out, parse_ribinary_seq data dtype = .ok out ∧
      encodeSeq dtype.byteSize out = data := by
  refine ⟨(List.range (data.length / dtype.byteSize)).map (riDecodeElem dtype.byteSize data),
    ?_, ?_⟩
  · unfold parse_ribinary_seq
    rw [if_pos hlen]
  · exact encodeSeq_riDecode dtype.byteSize (data.length / dtype.byteSize) data
      (Nat.div_mul_cancel (Nat.dvd_of_mod_eq_zero hlen)).symm hb

/-- Claim C4 witness: the doctest buffer round-trips at 16-bit width. -/
theorem parse_ribinary_seq_roundtrip_witness :
    ([7, 5, 248, 193] : List Nat).length % Dtype.i16.byteSize = 0 ∧
    (∀ b ∈ ([7, 5, 248, 193] : List Nat), b < 256) ∧
    ∃ out, parse_ribinary_seq [7, 5, 248, 193] .i16 = .ok out ∧
      encodeSeq Dtype.i16.byteSize out = [7, 5, 248, 193] :=
  ⟨by decide, by decide, parse_ribinary_seq_roundtrip _ _ (by decide) (by decide)⟩

/-- Claim C5: `parse_ribinary_seq` reads big-endian (most significant byte
first) fixed-width signed integers: the buffer `[0x07, 0x05, 0xf8, 0xc1]` at
16-bit width decodes to exactly `[1797, -1855]`. -/
theorem parse_ribinary_seq_big_endian_example :
    parse_ribinary_seq [0x07, 0x05, 0xf8, 0xc1] .i16 = .ok [1797, -1855] := rfl

/-- Claim C8: decoding the empty byte buffer succeeds with the empty sequence
for every element width. -/
theorem parse_ribinary_seq_empty (dtype : Dtype) :
    parse_ribinary_seq [] dtype = .ok [] := by
  cases dtype <;> rfl

/-- Claim C10: for every buffer whose length `n` is an exact multiple of the
element width `w` in bytes, the decoded sequence has exactly `n / w` elements
and its `i`-th element is decoded from bytes `i*w` through `i*w + w - 1`. -/
theorem parse_ribinary_seq_elements (data : List Nat) (dtype : Dtype)
    (h : data.length % dtype.byteSize = 0) :
    ∃ out, parse_ribinary_seq data dtype = .ok out ∧
      out.length = data.length / dtype.byteSize ∧
      ∀ i, i < out.length →
        out.getD i 0 = toSigned (8 * dtype.byteSize)
          (beBytesVal ((data.drop (i * dtype.byteSize)).take dtype.byteSize)) := by
  refine ⟨(List.range (data.length / dtype.byteSize)).map (riDecodeElem dtype.byteSize data),
    ?_, ?_, ?_⟩
  · unfold parse_ribinary_seq
    rw [if_pos h]
  · simp
  · intro i hi
    simp only [List.length_map, List.length_range] at hi
    rw [List.getD_eq_getElem _ _ (by simpa using hi)]
    simp [riDecodeElem]

/-- Claim C10 witness: the doctest buffer at 16-bit width has 2 elements taken
from bytes 0-1 and 2-3. -/
theorem parse_ribinary_seq_elements_witness :
    ([7, 5, 248, 193] : List Nat).length % Dtype.i16.byteSize = 0 ∧
    ∃ out, parse_ribinary_seq [7, 5, 248, 193] .i16 = .ok out ∧
      out.length = ([7, 5, 248, 193] : List Nat).length / Dtype.i16.byteSize ∧
      ∀ i, i < out.length →
        out.getD i 0 = toSigned (8 * Dtype.i16.byteSize)
          (beBytesVal ((([7, 5, 248, 193] : List Nat).drop (i * Dtype.i16.byteSize)).take
            Dtype.i16.byteSize)) :=
  ⟨by decide, parse_ribinary_seq_elements _ _ (by decide)⟩

/-- Claim C6 counterexample: the claim's token grammar ("optional leading sign,
no whitespace") rejects the token " 2", yet the decoder accepts the input
"1, 2" containing that token and returns `[1, 2]`: Python `int()` strips
surrounding whitespace, so no error is raised. -/
theorem parse_ascii_seq_whitespace_token_accepted :
    specIntLiteral (" 2").data = false ∧
    (" 2").data ∈ splitOnChar ',' ("1, 2").data ∧
    parse_ascii_seq ("1, 2").data .i8 = .ok [1, 2] :=
  ⟨by decide, by decide, rfl⟩

/-- Claim C6 (amended): a comma-separated token that Python `int()` rejects
(after stripping surrounding whitespace: optional sign, then digits with
optional single underscores between digits) makes `parse_ascii_seq` fail with
a FormatError carrying the index of the first such token. -/
theorem parse_ascii_seq_invalid_token_error (data : List Char) (dtype : Dtype) (i : Nat)
    (hi : i < (splitOnChar ',' data).length)
    (hbad : pyIntOfChars ((splitOnChar ',' data).getD i []) = none)
    (hgood : ∀ j, j < i → pyIntOfChars ((splitOnChar ',' data).getD j []) ≠ none) :
    parse_ascii_seq data dtype = .error (.invalidIntLiteral i) := by
  unfold parse_ascii_seq
  simpa using asciiDecodeAux_error dtype (splitOnChar ',' data) 0 i hi hbad hgood

/-- Claim C6 witness: the input "1,x" fails with the FormatError naming token
index 1. -/
theorem parse_ascii_seq_invalid_token_error_witness :
    1 < (splitOnChar ',' ("1,x").data).length ∧
    pyIntOfChars ((splitOnChar ',' ("1,x").data).getD 1 []) = none ∧
    parse_ascii_seq ("1,x").data .i8 = .error (.invalidIntLiteral 1) :=
  ⟨by decide, by decide,
    parse_ascii_seq_invalid_token_error _ _ _ (by decide) (by decide)
      (fun j hj => by interval_cases j; decide)⟩

/-- Claim C7: when every token parses as an integer, `parse_ascii_seq` succeeds
and stores each parsed value cast by two's-complement truncation to the target
width (out-of-range values wrap deterministically rather than raising). -/
theorem parse_ascii_seq_wrap (data : List Char) (dtype : Dtype)
    (h : ∀ t ∈ splitOnChar ',' data, pyIntOfChars t ≠ none) :
    parse_ascii_seq data dtype =
      .ok ((splitOnChar ',' data).map fun t => wrapCast dtype ((pyIntOfChars t).getD 0)) := by
  unfold parse_ascii_seq
  exact asciiDecodeAux_ok dtype _ 0 h

/-- Claim C7 witness: "1,2" at 8-bit width decodes to `[1, 2]`, and the
out-of-range "300" wraps to `[44]` (300 mod 256 = 44 < 128). -/
theorem parse_ascii_seq_wrap_witness :
    (∀ t ∈ splitOnChar ',' ("1,2").data, pyIntOfChars t ≠ none) ∧
    parse_ascii_seq ("1,2").data .i8 = .ok [1, 2] ∧
    parse_ascii_seq ("300").data .i8 = .ok [44] :=
  ⟨by decide, by rw [parse_ascii_seq_wrap _ _ (by decide)]; rfl,
    by rw [parse_ascii_seq_wrap _ _ (by decide)]; rfl⟩

/-- Claim C9: two preamble records that each split into at least 17 fields and
agree on the fields at indices 10, 11, 14, 15 and 16 produce equal results:
all other fields are ignored. -/
theorem parse_wfmoutpre_ignores_other_fields (r1 r2 : List Char)
    (h1 : 17 ≤ (splitOnChar ';' r1).length) (h2 : 17 ≤ (splitOnChar ';' r2).length)
    (e10 : (splitOnChar ';' r1).getD 10 [] = (splitOnChar ';' r2).getD 10 [])
    (e11 : (splitOnChar ';' r1).getD 11 [] = (splitOnChar ';' r2).getD 11 [])
    (e14 : (splitOnChar ';' r1).getD 14 [] = (splitOnChar ';' r2).getD 14 [])
    (e15 : (splitOnChar ';' r1).getD 15 [] = (splitOnChar ';' r2).getD 15 [])
    (e16 : (splitOnChar ';' r1).getD 16 [] = (splitOnChar ';' r2).getD 16 []) :
    parse_wfmoutpre r1 = parse_wfmoutpre r2 := by
  unfold parse_wfmoutpre
  rw [if_neg (by omega), if_neg (by omega), e10, e11, e14, e15, e16]

set_option maxRecDepth 8000 in
/-- Claim C9 witness: two records differing in every ignored field (and even in
field count) but agreeing at indices 10, 11, 14, 15, 16 parse identically. -/
theorem parse_wfmoutpre_ignores_other_fields_witness :
    17 ≤ (splitOnChar ';' ("0;1;2;3;4;5;6;7;8;9;1.5;2.5;12;13;3.5;4.5;5.5").data).length ∧
    17 ≤ (splitOnChar ';' ("a;b;c;d;e;f;g;h;i;j;1.5;2.5;x;y;3.5;4.5;5.5;junk").data).length ∧
    parse_wfmoutpre ("0;1;2;3;4;5;6;7;8;9;1.5;2.5;12;13;3.5;4.5;5.5").data =
      parse_wfmoutpre ("a;b;c;d;e;f;g;h;i;j;1.5;2.5;x;y;3.5;4.5;5.5;junk").data :=
  ⟨by decide, by decide,
    parse_wfmoutpre_ignores_other_fields _ _ (by decide) (by decide) (by decide) (by decide)
      (by decide) (by decide) (by decide)⟩

/-- Claim C8 witness: the empty buffer decodes to the empty sequence at 16-bit
width. -/
theorem parse_ribinary_seq_empty_witness :
    parse_ribinary_seq [] .i16 = .ok [] :=
  parse_ribinary_seq_empty .i16
